import Mathlib

/-!
Shallow embedding of the cat-bot repository (sources: src/src/index.js and
the revised file src/unnamed/part_000).  JavaScript strings are modelled as
List Char.  The subscriber file is modelled by its contents (a List Char);
file absence and unreadable files are modelled separately for the list()
claim.  Platform (Barkle) calls are modelled as recorded events whose
success or failure is supplied by an environment, and a thrown JS exception
is modelled by an explicit flag or an Option-valued result.
-/

namespace CatBot

/-- Model of JS data.split('\x5cn'): splits on every newline character,
keeping empty pieces, so n separators yield n+1 pieces. -/
def splitOnNewline : List Char → List (List Char)
  | [] => [[]]
  | c :: rest =>
    if c = '\n' then [] :: splitOnNewline rest
    else
      match splitOnNewline rest with
      | [] => [[c]]
      | p :: ps => (c :: p) :: ps

/-- Model of JS String.prototype.trim(): drop whitespace from both ends. -/
def trimChars (s : List Char) : List Char :=
  ((s.dropWhile Char.isWhitespace).reverse.dropWhile Char.isWhitespace).reverse

/-- The filter used by readSubscriberList: line.trim() !== ''. -/
def keepLine (line : List Char) : Bool :=
  !(trimChars line).isEmpty

/-- Model of JS subscribers.join('\x5cn'). -/
def joinNewline : List (List Char) → List Char
  | [] => []
  | [l] => l
  | l :: l2 :: ls => l ++ '\n' :: joinNewline (l2 :: ls)

/-- readSubscriberList, success path (file exists and is readable):
data.split('\x5cn').filter(line => line.trim() !== ''). -/
def readSubscriberList (data : List Char) : List (List Char) :=
  (splitOnNewline data).filter keepLine

/-- writeSubscriberList: overwrites the file with subscribers.join('\x5cn'). -/
def writeSubscriberList (subscribers : List (List Char)) : List Char :=
  joinNewline subscribers

/-- addSubscriber: read the list; if the id is not present, push it and write
the joined list back.  Returns the new file contents and whether
writeSubscriberList was called. -/
def addSubscriber (username file : List Char) : List Char × Bool :=
  if username ∈ readSubscriberList file then (file, false)
  else (writeSubscriberList (readSubscriberList file ++ [username]), true)

/-- removeSubscriber: read the list, filter the id out, and rewrite the file
only if the length changed.  Returns the new file contents and whether
writeSubscriberList was called. -/
def removeSubscriber (username file : List Char) : List Char × Bool :=
  if (readSubscriberList file).length ≠
      ((readSubscriberList file).filter (fun sub => sub != username)).length then
    (writeSubscriberList ((readSubscriberList file).filter (fun sub => sub != username)), true)
  else (file, false)

theorem splitOnNewline_ne_nil (s : List Char) : splitOnNewline s ≠ [] := by
  cases s with
  | nil => simp [splitOnNewline]
  | cons c rest =>
    simp only [splitOnNewline]
    split
    · simp
    · split
      · simp
      · simp

theorem splitOnNewline_no_newline {l : List Char} (h : '\n' ∉ l) :
    splitOnNewline l = [l] := by
  induction l with
  | nil => rfl
  | cons c rest ih =>
    have hc : c ≠ '\n' := fun hc => h (hc ▸ List.mem_cons_self c rest)
    have hrest : '\n' ∉ rest := fun hr => h (List.mem_cons_of_mem c hr)
    simp only [splitOnNewline, if_neg hc, ih hrest]

theorem splitOnNewline_append {l : List Char} (r : List Char) (h : '\n' ∉ l) :
    splitOnNewline (l ++ '\n' :: r) = l :: splitOnNewline r := by
  induction l with
  | nil => simp [splitOnNewline]
  | cons c rest ih =>
    have hc : c ≠ '\n' := fun hc => h (hc ▸ List.mem_cons_self c rest)
    have hrest : '\n' ∉ rest := fun hr => h (List.mem_cons_of_mem c hr)
    simp only [List.cons_append, splitOnNewline, if_neg hc, List.append_eq, ih hrest]

theorem no_newline_of_mem_splitOnNewline :
    ∀ (s : List Char), ∀ l ∈ splitOnNewline s, '\n' ∉ l := by
  intro s
  induction s with
  | nil =>
    intro l hl
    simp [splitOnNewline] at hl
    simp [hl]
  | cons c rest ih =>
    intro l hl
    by_cases hc : c = '\n'
    · subst hc
      have hl' : l ∈ ([] : List Char) :: splitOnNewline rest := by
        simpa [splitOnNewline] using hl
      rcases List.mem_cons.mp hl' with h | h
      · subst h; simp
      · exact ih l h
    · simp only [splitOnNewline, if_neg hc] at hl
      rcases hsp : splitOnNewline rest with _ | ⟨p, ps⟩
      · exact absurd hsp (splitOnNewline_ne_nil rest)
      · rw [hsp] at hl
        simp only [List.mem_cons] at hl
        rcases hl with h | h
        · subst h
          intro hmem
          rcases List.mem_cons.mp hmem with h1 | h1
          · exact hc h1.symm
          · exact ih p (by rw [hsp]; exact List.mem_cons_self p ps) h1
        · exact ih l (by rw [hsp]; exact List.mem_cons_of_mem p h)

theorem splitOnNewline_joinNewline :
    ∀ (ls : List (List Char)), ls ≠ [] → (∀ l ∈ ls, '\n' ∉ l) →
      splitOnNewline (joinNewline ls) = ls := by
  intro ls
  induction ls with
  | nil => intro hne; exact absurd rfl hne
  | cons l rest ih =>
    intro _ h
    cases rest with
    | nil =>
      simp only [joinNewline]
      exact splitOnNewline_no_newline (h l (List.mem_cons_self l []))
    | cons l2 rest2 =>
      have hl : '\n' ∉ l := h l (List.mem_cons_self l _)
      have hrest : ∀ m ∈ l2 :: rest2, '\n' ∉ m := fun m hm =>
        h m (List.mem_cons_of_mem l hm)
      simp only [joinNewline]
      rw [splitOnNewline_append _ hl, ih (by simp) hrest]

theorem read_write (ls : List (List Char)) (h : ∀ l ∈ ls, '\n' ∉ l) :
    readSubscriberList (writeSubscriberList ls) = ls.filter keepLine := by
  cases ls with
  | nil => decide
  | cons l rest =>
    unfold readSubscriberList writeSubscriberList
    rw [splitOnNewline_joinNewline (l :: rest) (by simp) h]

theorem read_no_newline (file : List Char) :
    ∀ l ∈ readSubscriberList file, '\n' ∉ l := fun l hl =>
  no_newline_of_mem_splitOnNewline file l (List.mem_filter.mp hl).1

theorem read_keepLine (file : List Char) :
    ∀ l ∈ readSubscriberList file, keepLine l = true := fun _ hl =>
  (List.mem_filter.mp hl).2

theorem read_filter_self (file : List Char) :
    (readSubscriberList file).filter keepLine = readSubscriberList file :=
  List.filter_eq_self.mpr (read_keepLine file)

theorem addSubscriber_of_mem {username file : List Char}
    (h : username ∈ readSubscriberList file) :
    addSubscriber username file = (file, false) := by
  simp [addSubscriber, h]

theorem addSubscriber_of_not_mem {username file : List Char}
    (h : username ∉ readSubscriberList file) :
    addSubscriber username file
      = (writeSubscriberList (readSubscriberList file ++ [username]), true) := by
  simp [addSubscriber, h]

theorem add_read (username file : List Char)
    (hmem : username ∉ readSubscriberList file) (h : '\n' ∉ username) :
    readSubscriberList (addSubscriber username file).1
      = readSubscriberList file
        ++ (if keepLine username = true then [username] else []) := by
  have hfile1 : (addSubscriber username file).1
      = writeSubscriberList (readSubscriberList file ++ [username]) := by
    simp [addSubscriber, hmem]
  have hnl : ∀ l ∈ readSubscriberList file ++ [username], '\n' ∉ l := by
    intro l hl
    rcases List.mem_append.mp hl with h1 | h1
    · exact read_no_newline file l h1
    · rw [List.mem_singleton.mp h1]; exact h
  rw [hfile1, read_write _ hnl, List.filter_append, read_filter_self]
  cases hb : keepLine username <;> simp [List.filter, hb]

theorem remove_read (username file : List Char) :
    readSubscriberList (removeSubscriber username file).1
      = (readSubscriberList file).filter (fun sub => sub != username) := by
  by_cases hlen : (readSubscriberList file).length
      = ((readSubscriberList file).filter (fun sub => sub != username)).length
  · have heq : (readSubscriberList file).filter (fun sub => sub != username)
        = readSubscriberList file :=
      (List.filter_sublist _).eq_of_length hlen.symm
    simp [removeSubscriber, hlen, heq]
  · have hnl : ∀ l ∈ (readSubscriberList file).filter (fun sub => sub != username),
        '\n' ∉ l := by
      intro l hl
      exact read_no_newline file l (List.mem_of_mem_filter hl)
    have hkeep : (((readSubscriberList file).filter
          (fun sub => sub != username)).filter keepLine)
        = (readSubscriberList file).filter (fun sub => sub != username) := by
      refine List.filter_eq_self.mpr ?_
      intro a ha
      exact read_keepLine file a (List.mem_of_mem_filter ha)
    simp [removeSubscriber, hlen, read_write _ hnl, hkeep]

/-- Claim C4 (amended): for every identifier containing no newline character
and every store state, adding the id twice leaves the file contents and the
resulting list equal to the state after adding once; an id already present
is never appended a second time.  (For identifiers containing a newline the
claim fails, see the counterexample.) -/
theorem addSubscriber_idempotent (username file : List Char) (h : '\n' ∉ username) :
    (addSubscriber username (addSubscriber username file).1).1
        = (addSubscriber username file).1 ∧
    readSubscriberList (addSubscriber username (addSubscriber username file).1).1
        = readSubscriberList (addSubscriber username file).1 := by
  have hf : (addSubscriber username (addSubscriber username file).1).1
      = (addSubscriber username file).1 := by
    by_cases hmem : username ∈ readSubscriberList file
    · rw [addSubscriber_of_mem hmem, addSubscriber_of_mem hmem]
    · have hread := add_read username file hmem h
      cases hb : keepLine username with
      | true =>
        have hmem2 : username ∈ readSubscriberList (addSubscriber username file).1 := by
          rw [hread]; simp [hb]
        rw [addSubscriber_of_mem hmem2]
      | false =>
        have hread2 : readSubscriberList (addSubscriber username file).1
            = readSubscriberList file := by rw [hread]; simp [hb]
        have hmem2 : username ∉ readSubscriberList (addSubscriber username file).1 := by
          rw [hread2]; exact hmem
        have hfile1 : (addSubscriber username file).1
            = writeSubscriberList (readSubscriberList file ++ [username]) := by
          rw [addSubscriber_of_not_mem hmem]
        rw [addSubscriber_of_not_mem hmem2, hread2]
        exact hfile1.symm
  exact ⟨hf, congrArg readSubscriberList hf⟩

/-- Claim C4 witness: adding the same ordinary id twice starting from a
one-entry store gives the same file as adding it once. -/
theorem addSubscriber_idempotent_witness :
    (addSubscriber ("alice".toList) (addSubscriber ("alice".toList) ("bob".toList)).1).1
      = (addSubscriber ("alice".toList) ("bob".toList)).1 :=
  (addSubscriber_idempotent ("alice".toList) ("bob".toList) (by decide)).1

/-- Claim C4 counterexample: for the identifier "x\x5cny", which contains a
newline, adding twice does not equal adding once (the entry is re-split on
read, so the membership test never finds it and it is appended again). -/
theorem addSubscriber_not_idempotent_newline :
    (addSubscriber ("x\ny".toList) (addSubscriber ("x\ny".toList) []).1).1
      ≠ (addSubscriber ("x\ny".toList) []).1 := by decide

/-- Claim C5: removing an id that is not in the subscriber store is a no-op:
the file contents are unchanged and writeSubscriberList is not called (the
Bool component records whether a write happened). -/
theorem removeSubscriber_absent_noop (username file : List Char)
    (h : username ∉ readSubscriberList file) :
    removeSubscriber username file = (file, false) := by
  have hfilt : (readSubscriberList file).filter (fun sub => sub != username)
      = readSubscriberList file := by
    refine List.filter_eq_self.mpr ?_
    intro a ha
    have hne : a ≠ username := fun e => h (e ▸ ha)
    simpa [bne_iff_ne] using hne
  simp [removeSubscriber, hfilt]

/-- Claim C5 witness: removing an absent id from a two-entry store leaves
the file unchanged and performs no write. -/
theorem removeSubscriber_absent_noop_witness :
    removeSubscriber ("carol".toList) ("alice\nbob".toList)
      = ("alice\nbob".toList, false) :=
  removeSubscriber_absent_noop _ _ (by decide)

/-- Claim C9 (amended): starting from a duplicate-free store, remove always
yields the duplicate-free order-preserving filter of the entries, an add of
an already-present id leaves the file unchanged, and an add of an absent id
that contains no newline and is a non-blank line appends it at the end,
preserving duplicate-freeness.  (For an identifier containing a newline the
invariant fails, see the counterexample.) -/
theorem subscriberStore_invariant (id file : List Char)
    (hnd : (readSubscriberList file).Nodup) :
    (readSubscriberList (removeSubscriber id file).1
        = (readSubscriberList file).filter (fun sub => sub != id)
      ∧ (readSubscriberList (removeSubscriber id file).1).Nodup)
    ∧ (id ∈ readSubscriberList file → (addSubscriber id file).1 = file)
    ∧ (id ∉ readSubscriberList file → '\n' ∉ id → keepLine id = true →
        readSubscriberList (addSubscriber id file).1 = readSubscriberList file ++ [id]
        ∧ (readSubscriberList (addSubscriber id file).1).Nodup) := by
  refine ⟨⟨remove_read id file, ?_⟩, ?_, ?_⟩
  · rw [remove_read]; exact hnd.filter _
  · intro hmem; simp [addSubscriber, hmem]
  · intro hmem hnl hkeep
    have hread2 : readSubscriberList (addSubscriber id file).1
        = readSubscriberList file ++ [id] := by
      rw [add_read id file hmem hnl]; simp [hkeep]
    refine ⟨hread2, ?_⟩
    rw [hread2]
    exact hnd.append (List.nodup_singleton id) (List.disjoint_singleton.mpr hmem)

/-- Claim C9 witness: adding a fresh ordinary id to a duplicate-free
two-entry store appends it at the end. -/
theorem subscriberStore_invariant_witness :
    readSubscriberList (addSubscriber ("dave".toList) ("alice\nbob".toList)).1
      = readSubscriberList ("alice\nbob".toList) ++ ["dave".toList] := by
  have h := subscriberStore_invariant ("dave".toList) ("alice\nbob".toList) (by decide)
  exact (h.2.2 (by decide) (by decide) (by decide)).1

/-- Claim C9 counterexample: adding the newline-containing identifier
"x\x5cny" to the duplicate-free store "x" produces a file whose entry list
has a duplicate. -/
theorem addSubscriber_breaks_nodup :
    ¬ (readSubscriberList (addSubscriber ("x\ny".toList) ("x".toList)).1).Nodup := by
  decide

/-- Result of the fs.readFile call in readSubscriberList: successful
contents, a missing file (ENOENT), or any other read error. -/
inductive FsReadResult where
  | ok (data : List Char)
  | enoent
  | otherError
deriving DecidableEq

/-- Full readSubscriberList including its catch branches: returns the
subscriber list together with the contents this call writes to the file
(some contents on the ENOENT create-empty path, none otherwise).  Errors
are logged and never surfaced to the caller. -/
def readSubscriberListFS : FsReadResult → List (List Char) × Option (List Char)
  | FsReadResult.ok data => (readSubscriberList data, none)
  | FsReadResult.enoent => ([], some [])
  | FsReadResult.otherError => ([], none)

/-- Claim C6: list() returns the non-blank lines of the backing file in file
order (the split lines filtered by the trim-non-empty test, a sublist of the
lines); when the file does not exist it creates it with empty contents and
returns the empty list; any other read failure also yields the empty list
with no write and no error surfaced to the caller. -/
theorem readSubscriberListFS_spec :
    (∀ data, readSubscriberListFS (FsReadResult.ok data)
        = ((splitOnNewline data).filter keepLine, none)) ∧
    (∀ data, (readSubscriberList data).Sublist (splitOnNewline data)) ∧
    readSubscriberListFS FsReadResult.enoent = ([], some []) ∧
    readSubscriberListFS FsReadResult.otherError = ([], none) :=
  ⟨fun _ => rfl, fun _ => List.filter_sublist _, rfl, rfl⟩

/-- Helper for substring containment: beginsWith pat s is true when pat is
an initial segment of s. -/
def beginsWith : List Char → List Char → Bool
  | [], _ => true
  | _ :: _, [] => false
  | p :: ps, c :: cs => p == c && beginsWith ps cs

/-- Model of JS s.includes(pat): pat occurs contiguously somewhere in s. -/
def containsSeq : List Char → List Char → Bool
  | [], pat => beginsWith pat []
  | c :: rest, pat => beginsWith pat (c :: rest) || containsSeq rest pat

/-- Model of JS text.toLowerCase() (adequate for the ASCII keywords). -/
def toLowerAll (s : List Char) : List Char := s.map Char.toLower

/-- Model of JS s.replace(pat, ''): removes the first occurrence of pat. -/
def replaceFirst (pat : List Char) : List Char → List Char
  | [] => []
  | c :: rest =>
    if beginsWith pat (c :: rest) then (c :: rest).drop pat.length
    else c :: replaceFirst pat rest

/-- The four branches of handleMentionNotification. -/
inductive CommandAction where
  | subscribe
  | unsubscribe
  | gimme
  | help
deriving DecidableEq

/-- The if/else-if chain of handleMentionNotification, in source order:
the subscribe-family substring checks run first, then the
unsubscribe-family, then gimme, else the help fallback. -/
def classifyCommand (command : List Char) : CommandAction :=
  if containsSeq command ("subscribe".toList) || containsSeq command ("sub".toList)
      || containsSeq command ("join".toList) then CommandAction.subscribe
  else if containsSeq command ("unsubscribe".toList)
      || containsSeq command ("unsub".toList)
      || containsSeq command ("leave".toList) then CommandAction.unsubscribe
  else if containsSeq command ("gimme".toList) then CommandAction.gimme
  else CommandAction.help

/-- Steps 1-2 of handleMentionNotification: lower-case the text, strip the
first occurrence of the bot handle literal, then trim. -/
def extractCommand (text : List Char) : List Char :=
  trimChars (replaceFirst ("@gimmecats".toList) (toLowerAll text))

/-- Which branch of handleMentionNotification runs for a given raw mention
text. -/
def handleMentionAction (text : List Char) : CommandAction :=
  classifyCommand (extractCommand text)

/-- Claim C1 (code bug): the mention "@gimmecats unsubscribe" is classified
by the dispatcher as a subscribe command, not an unsubscribe command.  The
subscribe-family check (which includes the substring "subscribe") runs
before the unsubscribe-family check, and "unsubscribe" contains
"subscribe", so the sender is added to the subscriber store.  The spec
mandates the opposite priority. -/
theorem unsubscribe_misclassified_as_subscribe :
    handleMentionAction ("@gimmecats unsubscribe".toList)
      = CommandAction.subscribe := by
  decide

/-- Barkle platform calls recorded by the model.  Call texts are elided: a
notes/create call is identified by its replyId and whether it attaches an
uploaded file, a direct message by its recipient. -/
inductive ApiCall where
  | uploadImage
  | notesCreate (replyId : Option (List Char)) (hasFile : Bool)
  | sendDirectMessage (userId : List Char)
  | readSubscribers
  | markAllAsRead
deriving DecidableEq

/-- Shape of the notes/create response data as the two revisions probe it:
src/src/index.js reads response.id, src/unnamed/part_000 reads
response.createdNote.id (none models an absent field). -/
structure NoteResponse where
  id : Option (List Char)
  createdNoteId : Option (List Char)
deriving DecidableEq

/-- Environment for one postToBarkle call: the value uploadImageToBarkle
returns (none models its caught-error null), whether the notes/create call
succeeds, and the response data returned when it does. -/
structure PostEnv where
  uploadResult : Option (List Char)
  noteCreateOk : Bool
  response : NoteResponse
deriving DecidableEq

/-- postToBarkle: when an image URL is given, first upload it, throwing
(result none, and notes/create never issued) when the upload returned null;
then issue notes/create, re-throwing its failure to the caller.  Returns
the calls made and (some response) on success, none when the function
threw. -/
def postToBarkle (env : PostEnv) (imageUrl : Option (List Char))
    (replyId : Option (List Char)) : List ApiCall × Option NoteResponse :=
  match imageUrl with
  | some _ =>
    match env.uploadResult with
    | none => ([ApiCall.uploadImage], none)
    | some _ =>
      if env.noteCreateOk then
        ([ApiCall.uploadImage, ApiCall.notesCreate replyId true], some env.response)
      else
        ([ApiCall.uploadImage, ApiCall.notesCreate replyId true], none)
  | none =>
    if env.noteCreateOk then
      ([ApiCall.notesCreate replyId false], some env.response)
    else
      ([ApiCall.notesCreate replyId false], none)

/-- A mention notification: note id and text, sender id and username. -/
structure Notification where
  noteId : List Char
  noteText : List Char
  userId : List Char
  username : List Char
deriving DecidableEq

/-- Environment for one handleMentionNotification call: whether its direct
barkleAxios notes/create reply succeeds, the getCatImage result (none when
that call failed and was caught inside getCatImage), and the PostEnv of a
gimme post. -/
structure HandleEnv where
  noteCreateOk : Bool
  catImage : Option (List Char)
  post : PostEnv
deriving DecidableEq

/-- Result of one dispatch: the subscriber file afterwards, the platform
calls made, and whether an exception escaped the function. -/
structure HandleResult where
  file : List Char
  calls : List ApiCall
  threw : Bool
deriving DecidableEq

/-- handleMentionNotification: classify the mention text and run the
branch.  The source function has no try/catch, so a failing notes/create
reply (or a failing postToBarkle in the gimme branch) escapes as an
exception, recorded in the threw flag; the store update of the
subscribe/unsubscribe branch happens before the reply.  The revision
src/unnamed/part_000 keys the store by user.id, which this model follows.
In the gimme branch a null cat image silently skips the reply. -/
def handleMentionNotification (env : HandleEnv) (file : List Char)
    (n : Notification) : HandleResult :=
  match handleMentionAction n.noteText with
  | CommandAction.subscribe =>
    ⟨(addSubscriber n.userId file).1,
     [ApiCall.notesCreate (some n.noteId) false], !env.noteCreateOk⟩
  | CommandAction.unsubscribe =>
    ⟨(removeSubscriber n.userId file).1,
     [ApiCall.notesCreate (some n.noteId) false], !env.noteCreateOk⟩
  | CommandAction.gimme =>
    match env.catImage with
    | none => ⟨file, [], false⟩
    | some url =>
      ⟨file, (postToBarkle env.post (some url) (some n.noteId)).1,
       (postToBarkle env.post (some url) (some n.noteId)).2.isNone⟩
  | CommandAction.help =>
    ⟨file, [ApiCall.notesCreate (some n.noteId) false], !env.noteCreateOk⟩

/-- Whether a dispatch throws; it depends only on the environment and the
notification, not on the subscriber file. -/
def handleThrows (env : HandleEnv) (n : Notification) : Bool :=
  (handleMentionNotification env [] n).threw

theorem handle_threw_eq (env : HandleEnv) (file : List Char) (n : Notification) :
    (handleMentionNotification env file n).threw = handleThrows env n := by
  unfold handleThrows handleMentionNotification
  cases handleMentionAction n.noteText
  · rfl
  · rfl
  · cases env.catImage <;> rfl
  · rfl

/-- Aggregate result of one poll tick: calls made, resulting subscriber
file, and whether the tick reached its end without an exception. -/
structure PollResult where
  calls : List ApiCall
  file : List Char
  ok : Bool
deriving DecidableEq

/-- The for-of dispatch loop of checkNotifications: dispatch sequentially
until a dispatch throws; ok records whether the loop completed. -/
def dispatchAll (envOf : Notification → HandleEnv) (file : List Char) :
    List Notification → PollResult
  | [] => ⟨[], file, true⟩
  | n :: rest =>
    if (handleMentionNotification (envOf n) file n).threw then
      ⟨(handleMentionNotification (envOf n) file n).calls,
       (handleMentionNotification (envOf n) file n).file, false⟩
    else
      ⟨(handleMentionNotification (envOf n) file n).calls
         ++ (dispatchAll envOf (handleMentionNotification (envOf n) file n).file rest).calls,
       (dispatchAll envOf (handleMentionNotification (envOf n) file n).file rest).file,
       (dispatchAll envOf (handleMentionNotification (envOf n) file n).file rest).ok⟩

/-- checkNotifications, given that the i/notifications fetch returned this
list: dispatch each notification sequentially; an escaping exception is
caught by the tick's catch, which ends the tick; otherwise
mark-all-as-read is called iff at least one notification was returned. -/
def checkNotifications (envOf : Notification → HandleEnv) (file : List Char)
    (notifications : List Notification) : PollResult :=
  if (dispatchAll envOf file notifications).ok then
    if 0 < notifications.length then
      ⟨(dispatchAll envOf file notifications).calls ++ [ApiCall.markAllAsRead],
       (dispatchAll envOf file notifications).file, true⟩
    else dispatchAll envOf file notifications
  else dispatchAll envOf file notifications

theorem postToBarkle_no_markAllRead (env : PostEnv)
    (imageUrl replyId : Option (List Char)) :
    ApiCall.markAllAsRead ∉ (postToBarkle env imageUrl replyId).1 := by
  unfold postToBarkle
  cases imageUrl with
  | none => cases env.noteCreateOk <;> simp
  | some url =>
    cases env.uploadResult with
    | none => simp
    | some fid => cases env.noteCreateOk <;> simp

theorem handle_no_markAllRead (env : HandleEnv) (file : List Char)
    (n : Notification) :
    ApiCall.markAllAsRead ∉ (handleMentionNotification env file n).calls := by
  unfold handleMentionNotification
  cases handleMentionAction n.noteText
  · simp
  · simp
  · cases env.catImage with
    | none => simp
    | some url => exact postToBarkle_no_markAllRead env.post (some url) (some n.noteId)
  · simp

theorem dispatchAll_no_markAllRead (envOf : Notification → HandleEnv) :
    ∀ (ns : List Notification) (file : List Char),
      ApiCall.markAllAsRead ∉ (dispatchAll envOf file ns).calls := by
  intro ns
  induction ns with
  | nil => intro file; simp [dispatchAll]
  | cons n rest ih =>
    intro file
    by_cases h : (handleMentionNotification (envOf n) file n).threw
    · simp only [dispatchAll, if_pos h]
      exact handle_no_markAllRead _ _ _
    · simp only [dispatchAll, if_neg h]
      intro hmem
      rcases List.mem_append.mp hmem with h1 | h1
      · exact handle_no_markAllRead _ _ _ h1
      · exact ih _ h1

theorem dispatchAll_ok (envOf : Notification → HandleEnv) :
    ∀ (ns : List Notification) (file : List Char),
      (∀ n ∈ ns, handleThrows (envOf n) n = false) →
      (dispatchAll envOf file ns).ok = true := by
  intro ns
  induction ns with
  | nil => intro file _; rfl
  | cons n rest ih =>
    intro file h
    have hn : ¬ (handleMentionNotification (envOf n) file n).threw = true := by
      rw [handle_threw_eq]
      simp [h n (List.mem_cons_self n rest)]
    simp only [dispatchAll, if_neg hn]
    exact ih _ (fun m hm => h m (List.mem_cons_of_mem n hm))

theorem dispatchAll_abort (envOf : Notification → HandleEnv)
    (l2 : List Notification) (n : Notification)
    (hn : handleThrows (envOf n) n = true) :
    ∀ (l1 : List Notification) (file : List Char),
      (∀ m ∈ l1, handleThrows (envOf m) m = false) →
      dispatchAll envOf file (l1 ++ n :: l2)
        = ⟨(dispatchAll envOf file l1).calls
             ++ (handleMentionNotification (envOf n)
                   (dispatchAll envOf file l1).file n).calls,
           (handleMentionNotification (envOf n)
             (dispatchAll envOf file l1).file n).file,
           false⟩ := by
  intro l1
  induction l1 with
  | nil =>
    intro file _
    have hn' : (handleMentionNotification (envOf n) file n).threw = true := by
      rw [handle_threw_eq]; exact hn
    simp [dispatchAll, hn']
  | cons m l1' ih =>
    intro file h
    have hm : ¬ (handleMentionNotification (envOf m) file m).threw = true := by
      rw [handle_threw_eq]
      simp [h m (List.mem_cons_self m l1')]
    have hrest : ∀ m2 ∈ l1', handleThrows (envOf m2) m2 = false :=
      fun m2 hm2 => h m2 (List.mem_cons_of_mem m hm2)
    rw [List.cons_append]
    simp only [dispatchAll, if_neg hm,
      ih (handleMentionNotification (envOf m) file m).file hrest,
      List.append_assoc]

/-- Claim C2 (amended): a platform-call failure while dispatching one
notification aborts the rest of the batch.  handleMentionNotification has
no try/catch, so the exception escapes to checkNotifications, whose catch
ends the tick: the tick does not complete, mark-all-as-read is not called,
and the tick's calls stop at the failing dispatch, so subsequent
notifications in the batch are not dispatched until the next tick. -/
theorem dispatch_failure_aborts_batch (envOf : Notification → HandleEnv)
    (file : List Char) (l1 l2 : List Notification) (n : Notification)
    (h1 : ∀ m ∈ l1, handleThrows (envOf m) m = false)
    (h2 : handleThrows (envOf n) n = true) :
    (checkNotifications envOf file (l1 ++ n :: l2)).ok = false ∧
    ApiCall.markAllAsRead ∉ (checkNotifications envOf file (l1 ++ n :: l2)).calls ∧
    (checkNotifications envOf file (l1 ++ n :: l2)).calls
      = (dispatchAll envOf file l1).calls
          ++ (handleMentionNotification (envOf n)
                (dispatchAll envOf file l1).file n).calls := by
  have hd := dispatchAll_abort envOf l2 n h2 l1 file h1
  have hck : checkNotifications envOf file (l1 ++ n :: l2)
      = ⟨(dispatchAll envOf file l1).calls
           ++ (handleMentionNotification (envOf n)
                 (dispatchAll envOf file l1).file n).calls,
         (handleMentionNotification (envOf n)
           (dispatchAll envOf file l1).file n).file,
         false⟩ := by
    simp [checkNotifications, hd]
  rw [hck]
  refine ⟨rfl, ?_, rfl⟩
  intro hmem
  rcases List.mem_append.mp hmem with hx | hx
  · exact dispatchAll_no_markAllRead envOf l1 file hx
  · exact handle_no_markAllRead _ _ _ hx

/-- Environment in which every barkleAxios notes/create call fails. -/
def failEnv : HandleEnv := ⟨false, none, ⟨none, false, ⟨none, none⟩⟩⟩

/-- Environment in which every platform call succeeds (no cat image, so a
gimme dispatch silently does nothing). -/
def okEnv : HandleEnv := ⟨true, none, ⟨none, true, ⟨none, none⟩⟩⟩

/-- Mention "@gimmecats sub" on note a from user u1. -/
def notifA : Notification :=
  ⟨"a".toList, "@gimmecats sub".toList, "u1".toList, "alice".toList⟩

/-- Mention "@gimmecats hello" on note b from user u2. -/
def notifB : Notification :=
  ⟨"b".toList, "@gimmecats hello".toList, "u2".toList, "bob".toList⟩

/-- Claim C2 counterexample: in a two-notification batch whose first
dispatch has its notes/create reply fail, the exception escapes
handleMentionNotification (threw = true), and the second notification is
never dispatched: its help reply (notesCreate threaded to note b) is
absent from the tick, which ends after the failing call. -/
theorem dispatch_failure_blocks_rest :
    (handleMentionNotification failEnv [] notifA).threw = true ∧
    checkNotifications (fun _ => failEnv) [] [notifA, notifB]
      = ⟨[ApiCall.notesCreate (some ("a".toList)) false], "u1".toList, false⟩ ∧
    ApiCall.notesCreate (some ("b".toList)) false
      ∉ (checkNotifications (fun _ => failEnv) [] [notifA, notifB]).calls := by
  decide

/-- Claim C2 witness for the amended theorem, at a concrete batch. -/
theorem dispatch_failure_aborts_batch_witness :
    (checkNotifications (fun _ => failEnv) [] ([] ++ notifA :: [notifB])).ok
      = false :=
  (dispatch_failure_aborts_batch (fun _ => failEnv) [] [] [notifB] notifA
    (by simp) (by decide)).1

/-- Claim C3 (amended): for a poll tick whose dispatches all complete
without throwing: when zero notifications are returned the tick makes no
calls at all, so mark-all-as-read is not called; when at least one
notification is returned, the tick's calls are exactly the dispatch calls
of the notifications, sequentially in the order returned, followed by a
single trailing mark-all-as-read, which therefore runs exactly once and
only after all dispatches.  (When a dispatch throws, mark-all-as-read is
not called at all; see the counterexample.) -/
theorem checkNotifications_markAllRead (envOf : Notification → HandleEnv)
    (file : List Char) (ns : List Notification)
    (h : ∀ n ∈ ns, handleThrows (envOf n) n = false) :
    checkNotifications envOf file [] = ⟨[], file, true⟩ ∧
    (ns ≠ [] →
      (checkNotifications envOf file ns).calls
        = (dispatchAll envOf file ns).calls ++ [ApiCall.markAllAsRead]
      ∧ ApiCall.markAllAsRead ∉ (dispatchAll envOf file ns).calls) := by
  constructor
  · rfl
  · intro hne
    have hok := dispatchAll_ok envOf ns file h
    have hlen : 0 < ns.length := List.length_pos.mpr hne
    constructor
    · simp [checkNotifications, hok, hlen]
    · exact dispatchAll_no_markAllRead envOf ns file

/-- Claim C3 witness: a successful one-notification tick ends with exactly
one mark-all-as-read after the dispatch calls. -/
theorem checkNotifications_markAllRead_witness :
    (checkNotifications (fun _ => okEnv) [] [notifB]).calls
      = (dispatchAll (fun _ => okEnv) [] [notifB]).calls
          ++ [ApiCall.markAllAsRead] := by
  have h := checkNotifications_markAllRead (fun _ => okEnv) [] [notifB] (by decide)
  exact (h.2 (by simp)).1

/-- Claim C3 counterexample: a tick that returns one notification (N = 1 >
0) whose dispatch throws never calls mark-all-as-read. -/
theorem markAllRead_skipped_on_throw :
    0 < ([notifA].length) ∧
    ApiCall.markAllAsRead
      ∉ (checkNotifications (fun _ => failEnv) [] [notifA]).calls := by
  decide

/-- Environment for one run of the hourly job: the getCatImage result, the
PostEnv of the cat post, and the PostEnv of the subscriber-mention reply of
the src/src/index.js revision. -/
structure HourlyEnv where
  catImage : Option (List Char)
  post1 : PostEnv
  post2 : PostEnv
deriving DecidableEq

/-- postHourlyCat of src/src/index.js: fetch a cat image (abort when null),
post it via postToBarkle (abort when it throws), require response.id (abort
when absent), then read the subscriber list and, when non-empty, post one
reply threaded to the new note mentioning all subscribers.  Every abort is
the caught throw of the source's try/catch; the returned list records the
calls made. -/
def postHourlyCat (env : HourlyEnv) (file : List Char) : List ApiCall :=
  match env.catImage with
  | none => []
  | some url =>
    match (postToBarkle env.post1 (some url) none).2 with
    | none => (postToBarkle env.post1 (some url) none).1
    | some response =>
      match response.id with
      | none => (postToBarkle env.post1 (some url) none).1
      | some noteId =>
        if 0 < (readSubscriberList file).length then
          (postToBarkle env.post1 (some url) none).1 ++ [ApiCall.readSubscribers]
            ++ (postToBarkle env.post2 none (some noteId)).1
        else (postToBarkle env.post1 (some url) none).1 ++ [ApiCall.readSubscribers]

/-- postHourlyCat of src/unnamed/part_000: the same flow, except the note
id is read from response.createdNote.id and subscribers are notified by
individual direct messages (whose per-recipient failures are caught inside
sendDirectMessage). -/
def postHourlyCatV2 (env : HourlyEnv) (file : List Char) : List ApiCall :=
  match env.catImage with
  | none => []
  | some url =>
    match (postToBarkle env.post1 (some url) none).2 with
    | none => (postToBarkle env.post1 (some url) none).1
    | some response =>
      match response.createdNoteId with
      | none => (postToBarkle env.post1 (some url) none).1
      | some _ =>
        if 0 < (readSubscriberList file).length then
          (postToBarkle env.post1 (some url) none).1 ++ [ApiCall.readSubscribers]
            ++ (readSubscriberList file).map (fun sub => ApiCall.sendDirectMessage sub)
        else (postToBarkle env.post1 (some url) none).1 ++ [ApiCall.readSubscribers]

/-- Claim C7: when the image source returns null, the hourly job (in both
revisions) makes no platform calls at all: in particular it issues no
notes/create and contacts no subscriber. -/
theorem hourly_no_image_aborts (env : HourlyEnv) (file : List Char)
    (h : env.catImage = none) :
    postHourlyCat env file = [] ∧ postHourlyCatV2 env file = [] := by
  constructor <;> simp [postHourlyCat, postHourlyCatV2, h]

/-- Hourly environment with a null cat image. -/
def nullImageEnv : HourlyEnv :=
  ⟨none, ⟨none, false, ⟨none, none⟩⟩, ⟨none, false, ⟨none, none⟩⟩⟩

/-- Claim C7 witness at a concrete environment. -/
theorem hourly_no_image_aborts_witness :
    postHourlyCat nullImageEnv [] = [] :=
  (hourly_no_image_aborts nullImageEnv [] rfl).1

/-- Claim C8: when the cat post succeeds but the response lacks the note id
in the field the revision expects, the hourly job stops after logging: its
calls are exactly the upload and the single notes/create of the cat post;
the subscriber store is never consulted, no reply is threaded to any note,
and no direct message is sent. -/
theorem hourly_missing_note_id (env : HourlyEnv) (file url fid : List Char)
    (himg : env.catImage = some url)
    (hup : env.post1.uploadResult = some fid)
    (hok : env.post1.noteCreateOk = true)
    (hid : env.post1.response.id = none)
    (hcn : env.post1.response.createdNoteId = none) :
    postHourlyCat env file = [ApiCall.uploadImage, ApiCall.notesCreate none true] ∧
    postHourlyCatV2 env file = [ApiCall.uploadImage, ApiCall.notesCreate none true] ∧
    ApiCall.readSubscribers ∉ postHourlyCat env file ∧
    ApiCall.readSubscribers ∉ postHourlyCatV2 env file ∧
    (∀ u, ApiCall.sendDirectMessage u ∉ postHourlyCatV2 env file) ∧
    (∀ rid hf, ApiCall.notesCreate (some rid) hf ∉ postHourlyCat env file) := by
  have h1 : postHourlyCat env file
      = [ApiCall.uploadImage, ApiCall.notesCreate none true] := by
    simp [postHourlyCat, postToBarkle, himg, hup, hok, hid]
  have h2 : postHourlyCatV2 env file
      = [ApiCall.uploadImage, ApiCall.notesCreate none true] := by
    simp [postHourlyCatV2, postToBarkle, himg, hup, hok, hcn]
  refine ⟨h1, h2, ?_, ?_, ?_, ?_⟩ <;> simp [h1, h2]

/-- Hourly environment whose cat post succeeds but whose response carries
no note id in either field. -/
def missingIdEnv : HourlyEnv :=
  ⟨some ("u".toList), ⟨some ("f".toList), true, ⟨none, none⟩⟩,
   ⟨none, false, ⟨none, none⟩⟩⟩

/-- Claim C8 witness at a concrete environment. -/
theorem hourly_missing_note_id_witness :
    postHourlyCat missingIdEnv [] = [ApiCall.uploadImage, ApiCall.notesCreate none true] :=
  (hourly_missing_note_id missingIdEnv [] ("u".toList) ("f".toList)
    rfl rfl rfl rfl rfl).1

/-- Claim C10: a postToBarkle call with a non-null image URL whose upload
step fails (returns null) throws before notes/create: the result carries no
response, and the only call made is the upload, so no note is created. -/
theorem postToBarkle_upload_failure_no_note (env : PostEnv) (url : List Char)
    (replyId : Option (List Char)) (h : env.uploadResult = none) :
    (postToBarkle env (some url) replyId).2 = none ∧
    (postToBarkle env (some url) replyId).1 = [ApiCall.uploadImage] ∧
    ∀ rid hf, ApiCall.notesCreate rid hf ∉ (postToBarkle env (some url) replyId).1 := by
  refine ⟨?_, ?_, ?_⟩ <;> simp [postToBarkle, h]

/-- PostEnv whose upload fails. -/
def failUploadPost : PostEnv := ⟨none, true, ⟨none, none⟩⟩

/-- Claim C10 witness at a concrete environment. -/
theorem postToBarkle_upload_failure_witness :
    (postToBarkle failUploadPost (some ("u".toList)) none).2 = none :=
  (postToBarkle_upload_failure_no_note failUploadPost ("u".toList) none rfl).1

end CatBot
